import Mathlib

/-!
# Service host lifecycle (core/service_host.go)

A shallow embedding of the `serviceHost` of `core/service_host.go`: the module
registry, the shutdown coordinator, `Start`, `WaitForShutdown` and the
lifecycle state machine.

Conventions of the embedding.

* A Go `error` is an `Option GoError`; `none` is `nil` and the string is what
  `Error()` returns.
* Every method takes the receiver as a value and gives back the receiver after
  the call, the calls it made on its collaborators (modules, the service
  instance, the completion signal) as a list of `Event`s in program order, and
  an `Outcome`: a normal return, a Go runtime fault, a call that waits for ever,
  or the end of the process.
* `sync.Mutex` is the boolean `shutdownMu` (true: held).  `Lock` on a held mutex
  never returns.
* `chan ServiceExit` is unbuffered: a send completes only when a receiver is
  waiting, which `Chan.receivers` counts.
* The goroutines of `startModules` run interleaved: a schedule, a list of
  numbers, says which unfinished goroutine takes the next step. They share the
  result map without a lock, and a write to it takes two steps, so two writes
  can overlap: the data race that the Go runtime reports as
  `fatal error: concurrent map writes`.
* The goroutines of `stopModules`, whose map `shutdown` throws away, are run
  one after the other, in registry order.

The request context of `internal/fxcontext/context.go` is embedded in the
namespace `fxcontext`: a Go context is the list of its `WithValue` layers.
-/

namespace Fx

/-- Modelled from the spec: the `ServiceState` enumeration, declared outside
`service_host.go`, with the order
`Uninitialized < Initialized < Starting < Running < Stopping < Stopped`. -/
inductive ServiceState where
  | Uninitialized
  | Initialized
  | Starting
  | Running
  | Stopping
  | Stopped
  deriving DecidableEq, Repr

/-- The integer value of a state: the position in the enumeration. -/
def ServiceState.toNat : ServiceState → Nat
  | .Uninitialized => 0
  | .Initialized => 1
  | .Starting => 2
  | .Running => 3
  | .Stopping => 4
  | .Stopped => 5

instance : LT ServiceState := ⟨fun a b => a.toNat < b.toNat⟩

instance : LE ServiceState := ⟨fun a b => a.toNat ≤ b.toNat⟩

instance (a b : ServiceState) : Decidable (a < b) :=
  inferInstanceAs (Decidable (a.toNat < b.toNat))

instance (a b : ServiceState) : Decidable (a ≤ b) :=
  inferInstanceAs (Decidable (a.toNat ≤ b.toNat))

/-- The value of a non-nil Go `error`: its `Error()` message. -/
abbrev GoError := String

/-- The `ServiceExit` record. -/
structure ServiceExit where
  Reason : String
  Error : Option GoError
  ExitCode : Int
  deriving DecidableEq, Repr

/-- The zero value of `ServiceExit`, what a receive from a closed channel gives. -/
def ServiceExit.zero : ServiceExit := ⟨"", none, 0⟩

/-- A `Module`: its identity (`id`, modules are compared by reference) and what
its methods answer. `startResult` is the value its `Start()` signal delivers. -/
structure Module where
  id : Nat
  Name : String
  IsRunning : Bool
  startResult : Option GoError
  stopResult : Option GoError
  deriving DecidableEq, Repr

/-- The answers of the user-supplied `ServiceInstance` hooks. `OnStateChange`
and `OnShutdown` return nothing; their calls are recorded as events. -/
structure ServiceInstance where
  OnInit : Option GoError
  OnCriticalError : GoError → Bool

/-- An unbuffered `chan ServiceExit`: the receivers waiting on it, the values
handed over so far, and whether it has been closed. -/
structure Chan where
  receivers : Nat
  delivered : List ServiceExit
  closed : Bool
  deriving DecidableEq, Repr

/-- The channel `make(chan ServiceExit)` returns. -/
def Chan.make : Chan := ⟨0, [], false⟩

/-- A receive that does not wait: a closed channel gives the zero value at once,
an open one has nothing to give until a sender arrives (`none`). -/
def Chan.recv (c : Chan) : Option ServiceExit :=
  if c.closed then some ServiceExit.zero else none

/-- The fields of `serviceHost` the lifecycle code reads or writes; `state` is
the field of the embedded `serviceCore`. -/
structure serviceHost where
  state : ServiceState
  locked : Bool
  inst : Option ServiceInstance
  modules : List Module
  shutdownMu : Bool
  inShutdown : Bool
  shutdownReason : Option ServiceExit
  closeChan : Option Chan

/-- A call made on a collaborator. -/
inductive Event where
  | start (m : Module)
  | stop (m : Module)
  | send (e : ServiceExit)
  | close
  | onInit
  | onShutdown (e : ServiceExit)
  | onStateChange (old new : ServiceState)
  deriving DecidableEq, Repr

/-- How a call ends. `blocked`: it waits for ever on a mutex or a channel.
`exited`: `os.Exit` ended the process. `unfinished`: the loop was still running
when the fuel of the model ran out. -/
inductive Outcome (α : Type) where
  | returned (a : α)
  | panicked (msg : String)
  | blocked
  | exited (code : Int)
  | unfinished
  deriving DecidableEq, Repr

/-- The receiver after a call, the calls made on collaborators, and the outcome. -/
structure Run (α : Type) where
  host : serviceHost
  trace : List Event
  out : Outcome α

/-- `map[Module]error`: at most one entry for a module. -/
abbrev ErrMap := List (Module × GoError)

/-- `results[m] = e`: replaces the entry of `m` when there is one. -/
def ErrMap.set : ErrMap → Module → GoError → ErrMap
  | [], m, e => [(m, e)]
  | (k, v) :: rest, m, e =>
    if k = m then (m, e) :: rest else (k, v) :: ErrMap.set rest m e

/-- `results[m]`, `none` when `m` is not a key. -/
def ErrMap.get? : ErrMap → Module → Option GoError
  | [], _ => none
  | (k, v) :: rest, m => if k = m then some v else ErrMap.get? rest m

/-- `addModule`: refuses once the host is locked, appends otherwise. -/
def addModule (s : serviceHost) (module : Module) : serviceHost × Option GoError :=
  if s.locked then
    (s, some "ServiceAlreadyStarted")
  else
    ({ s with modules := s.modules ++ [module] }, none)

/-- `IsRunning`: the completion signal exists. -/
def IsRunning (s : serviceHost) : Bool :=
  s.closeChan.isSome

/-- One turn of the `for svc.state < to` loop of `transitionState`: the `switch`
picks `new`, the observer is told; `svc.state` is not assigned. -/
def transitionBody (svc : serviceHost) : serviceHost × List Event :=
  let old := svc.state
  let new :=
    match svc.state with
    | .Uninitialized => ServiceState.Initialized
    | .Initialized => ServiceState.Starting
    | .Starting => ServiceState.Running
    | .Running => ServiceState.Stopping
    | .Stopping => ServiceState.Stopped
    | .Stopped => svc.state
  (svc, if svc.inst.isSome then [Event.onStateChange old new] else [])

/-- The loop of `transitionState`, for at most `fuel` turns (`target` is the parameter `to`). -/
def transitionLoop : Nat → serviceHost → ServiceState → List Event → Run Unit
  | 0, svc, target, evs =>
    if svc.state < target then ⟨svc, evs, .unfinished⟩ else ⟨svc, evs, .returned ()⟩
  | fuel + 1, svc, target, evs =>
    if svc.state < target then
      let r := transitionBody svc
      transitionLoop fuel r.1 target (evs ++ r.2)
    else ⟨svc, evs, .returned ()⟩

/-- `transitionState`: panics on a target below the current state (the message
is kept without the two formatted states), runs the loop otherwise. -/
def transitionState (fuel : Nat) (svc : serviceHost) (target : ServiceState) : Run Unit :=
  if target < svc.state then
    ⟨svc, [], .panicked "Can't down from state"⟩
  else
    transitionLoop fuel svc target []

/-- Where the goroutine that `startModules` launched for a module stands:
not yet run; back from `<-startResult` with a non-nil `startError`; or inside
the assignment `results[m] = startError`. A goroutine that reached `wg.Done()`
is no longer kept. -/
inductive Phase where
  | launched
  | received (startError : GoError)
  | assigning (startError : GoError)
  deriving DecidableEq, Repr

/-- The goroutine is inside its write to the map. -/
def Phase.isAssigning : Phase → Bool
  | .assigning _ => true
  | _ => false

/-- The steps a goroutine in this phase still has to take, at most. -/
def Phase.cost : Phase → Nat
  | .launched => 3
  | .received _ => 2
  | .assigning _ => 1

/-- A run of `startModules` under way: the goroutines that have not reached
`wg.Done()`, the `Start()` calls made so far, the shared map `results`, and
whether two writes to the map have overlapped. -/
structure StartRun where
  pending : List (Module × Phase)
  calls : List Event
  results : ErrMap
  raced : Bool

/-- Some goroutine is inside a write to the map. -/
def mapBusy (pending : List (Module × Phase)) : Bool :=
  pending.any (fun g => g.2.isAssigning)

/-- The steps all the unfinished goroutines still have to take, at most. -/
def work (pending : List (Module × Phase)) : Nat :=
  (pending.map (fun g => g.2.cost)).sum

/-- One step of the goroutine at position `i` among the unfinished ones
(lines 180-186). A launched goroutine tests `!m.IsRunning()`, calls `m.Start()`
and receives from the signal; with a nil error, or a running module, it is done.
With an error it next begins `results[m] = startError`, a race when the write
of another goroutine is still in progress, and in a later step completes the
write and is done. -/
def stepGoroutine (r : StartRun) (i : Nat) : StartRun :=
  match r.pending.drop i with
  | [] => r
  | (m, .launched) :: after =>
    if !m.IsRunning then
      match m.startResult with
      | some startError =>
        { r with pending := r.pending.take i ++ (m, Phase.received startError) :: after,
                 calls := r.calls ++ [Event.start m] }
      | none =>
        { r with pending := r.pending.take i ++ after, calls := r.calls ++ [Event.start m] }
    else
      { r with pending := r.pending.take i ++ after }
  | (m, .received startError) :: after =>
    if mapBusy r.pending then
      { r with raced := true }
    else
      { r with pending := r.pending.take i ++ (m, Phase.assigning startError) :: after }
  | (m, .assigning startError) :: after =>
    { r with pending := r.pending.take i ++ after,
             results := ErrMap.set r.results m startError }

/-- The goroutines run until all are done or two writes overlap, for at most
`fuel` steps. The head of the schedule, reduced modulo the number of unfinished
goroutines, picks the one that takes the next step; an exhausted schedule
picks the first. -/
def runGoroutines : Nat → List Nat → StartRun → StartRun
  | 0, _, r => r
  | fuel + 1, sched, r =>
    if r.raced then r
    else
      match r.pending with
      | [] => r
      | _ :: _ =>
        runGoroutines fuel sched.tail (stepGoroutine r (sched.headD 0 % r.pending.length))

/-- `startModules` under the schedule `sched`: one goroutine per registered
module, run to `wg.Wait()`. Three steps for each goroutine are enough. -/
def startModules (s : serviceHost) (sched : List Nat) : StartRun :=
  runGoroutines (3 * s.modules.length) sched
    { pending := s.modules.map (fun m => (m, Phase.launched)), calls := [], results := [],
      raced := false }

/-- The goroutine bodies of `stopModules`, one module after the other: the
guard is `!m.IsRunning()`, as in `startModules`. -/
def stopLoop : List Module → List Event × ErrMap → List Event × ErrMap
  | [], acc => acc
  | m :: rest, (evs, results) =>
    if !m.IsRunning then
      match m.stopResult with
      | some err => stopLoop rest (evs ++ [Event.stop m], ErrMap.set results m err)
      | none => stopLoop rest (evs ++ [Event.stop m], results)
    else
      stopLoop rest (evs, results)

/-- `stopModules`: the calls made and the map returned after `wg.Wait()`. -/
def stopModules (s : serviceHost) : List Event × ErrMap :=
  stopLoop s.modules ([], [])

/-- The deferred function of `shutdown`: clears `inShutdown`, unlocks. -/
def shutdownDeferred (s : serviceHost) : serviceHost :=
  { s with inShutdown := false, shutdownMu := false }

/-- The `ServiceExit` that `shutdown` builds from its arguments (lines 83-98). -/
def mkShutdownReason (err : Option GoError) (reason : String) (exitCode : Option Int) :
    ServiceExit :=
  let r0 : ServiceExit := { Reason := reason, Error := err, ExitCode := 0 }
  let r1 : ServiceExit :=
    match err with
    | some e =>
      let r := if reason ≠ "" then { r0 with Reason := e } else r0
      { r with ExitCode := 1 }
    | none => r0
  match exitCode with
  | some c => { r1 with ExitCode := c }
  | none => r1

/-- `shutdown(err, reason, exitCode)`. -/
def shutdown (s : serviceHost) (err : Option GoError) (reason : String)
    (exitCode : Option Int) : Run (Bool × Option GoError) :=
  if s.shutdownMu then
    ⟨s, [], .blocked⟩
  else
    let s1 := { s with shutdownMu := true, inShutdown := true }
    if s1.shutdownReason.isSome || !IsRunning s1 then
      ⟨shutdownDeferred s1, [], .returned (false, none)⟩
    else
      let exit := mkShutdownReason err reason exitCode
      let s2 := { s1 with shutdownReason := some exit }
      let stops := (stopModules s2).1
      match s2.closeChan with
      | none => ⟨s2, stops, .blocked⟩
      | some c =>
        if c.closed then
          ⟨shutdownDeferred s2, stops, .panicked "send on closed channel"⟩
        else if c.receivers = 0 then
          ⟨s2, stops, .blocked⟩
        else
          let c1 : Chan :=
            { receivers := c.receivers - 1, delivered := c.delivered ++ [exit], closed := true }
          let s3 := { s2 with closeChan := some c1 }
          let hook := if s3.inst.isSome then [Event.onShutdown exit] else []
          ⟨shutdownDeferred s3, stops ++ [Event.send exit, Event.close] ++ hook,
            .returned (true, err)⟩

/-- `Stop(reason, exitCode)`: a shutdown without error, with an explicit code. -/
def Stop (s : serviceHost) (reason : String) (exitCode : Int) : Run (Option GoError) :=
  let r := shutdown s none reason (some exitCode)
  ⟨r.host, r.trace,
    match r.out with
    | .returned p => .returned p.2
    | .panicked msg => .panicked msg
    | .blocked => .blocked
    | .exited c => .exited c
    | .unfinished => .unfinished⟩

/-- `OnCriticalError(err)`: the instance is asked first (a nil instance is a nil
dereference); an unhandled error shuts the host down. -/
def OnCriticalError (s : serviceHost) (err : GoError) : Run Unit :=
  match s.inst with
  | none => ⟨s, [], .panicked "nil pointer dereference"⟩
  | some i =>
    if !i.OnCriticalError err then
      let r := shutdown s (some err) "" none
      ⟨r.host, r.trace,
        match r.out with
        | .returned _ => .returned ()
        | .panicked msg => .panicked msg
        | .blocked => .blocked
        | .exited c => .exited c
        | .unfinished => .unfinished⟩
    else ⟨s, [], .returned ()⟩

/-- The body of `WaitForShutdown` after the receive `shutdown := <-s.closeChan`:
the argument given to `os.Exit`. A nil callback is `none`. -/
def WaitForShutdown (exitCallback : Option (ServiceExit → Int)) (shutdown : ServiceExit) : Int :=
  match exitCallback with
  | some cb => cb shutdown
  | none => if shutdown.Error.isSome then 1 else 0

/-- `Start(waitForShutdown)`. After a module start error the statement
`errChan <- *s.shutdownReason` is reached with `shutdownReason` just set to nil;
were it not nil, the send on the fresh unbuffered `errChan`, which nobody else
holds, would wait for ever. With `waitForShutdown` the call waits on the
completion signal while still holding the mutex. `sched` is the schedule of the
goroutines of `startModules`. When two of their map writes overlap, what the
map then holds is not defined by Go; the outcome given is the one of the
runtime's check, which ends the process with
`fatal error: concurrent map writes` before any deferred function runs. -/
def Start (s : serviceHost) (waitForShutdown : Bool) (sched : List Nat) :
    Run (Option Chan × Option GoError) :=
  let s0 := { s with locked := true }
  if s0.shutdownMu then
    ⟨s0, [], .blocked⟩
  else
    let s1 := { s0 with shutdownMu := true }
    if s1.inShutdown then
      ⟨{ s1 with shutdownMu := false }, [], .returned (none, some "errShuttingDown")⟩
    else if IsRunning s1 then
      ⟨{ s1 with shutdownMu := false }, [], .returned (s1.closeChan, none)⟩
    else
      let init : List Event × Option GoError :=
        match s1.inst with
        | some i => ([Event.onInit], i.OnInit)
        | none => ([], none)
      match init.2 with
      | some e => ⟨{ s1 with shutdownMu := false }, init.1, .returned (none, some e)⟩
      | none =>
        let s2 := { s1 with shutdownReason := none, closeChan := some Chan.make }
        let started := startModules s2 sched
        if started.raced then
          ⟨s2, init.1 ++ started.calls, .panicked "concurrent map writes"⟩
        else if started.results.length > 0 then
          match s2.shutdownReason with
          | none =>
            ⟨{ s2 with shutdownMu := false }, init.1 ++ started.calls,
              .panicked "nil pointer dereference"⟩
          | some _ => ⟨s2, init.1 ++ started.calls, .blocked⟩
        else if waitForShutdown then
          match s2.closeChan.bind Chan.recv with
          | some v => ⟨s2, init.1 ++ started.calls, .exited (WaitForShutdown none v)⟩
          | none => ⟨s2, init.1 ++ started.calls, .blocked⟩
        else
          ⟨{ s2 with shutdownMu := false }, init.1 ++ started.calls,
            .returned (s2.closeChan, none)⟩

/-- The arguments of one `shutdown` call. -/
structure ShutdownCall where
  err : Option GoError
  reason : String
  exitCode : Option Int

/-- A sequence of `shutdown` calls, one after the other: the host at the end,
all the calls made on collaborators, and the outcome of every call. -/
def shutdownAll :
    serviceHost → List ShutdownCall →
      serviceHost × List Event × List (Outcome (Bool × Option GoError))
  | s, [] => (s, [], [])
  | s, c :: cs =>
    let r := shutdown s c.err c.reason c.exitCode
    let rest := shutdownAll r.host cs
    (rest.1, r.trace ++ rest.2.1, r.out :: rest.2.2)

/-- A call on the host, or a step of its surroundings. -/
inductive Call where
  | addModule (m : Module)
  | start (waitForShutdown : Bool) (sched : List Nat)
  | stop (reason : String) (exitCode : Int)
  | shutdown (err : Option GoError) (reason : String) (exitCode : Option Int)
  | criticalError (err : GoError)
  | transition (fuel : Nat) (target : ServiceState)
  | receive

/-- The host after one call. `receive`: another goroutine starts to wait on the
completion signal. -/
def Call.run (s : serviceHost) : Call → serviceHost
  | .addModule m => (Fx.addModule s m).1
  | .start w sched => (Start s w sched).host
  | .stop reason exitCode => (Stop s reason exitCode).host
  | .shutdown err reason exitCode => (Fx.shutdown s err reason exitCode).host
  | .criticalError err => (OnCriticalError s err).host
  | .transition fuel target => (transitionState fuel s target).host
  | .receive =>
    { s with closeChan := s.closeChan.map (fun c => { c with receivers := c.receivers + 1 }) }

/-- The host after a sequence of calls. -/
def runCalls (s : serviceHost) (calls : List Call) : serviceHost :=
  calls.foldl Call.run s

/-- A module that is not running and whose start fails. -/
def failingModule : Module :=
  { id := 1, Name := "failing", IsRunning := false, startResult := some "boom", stopResult := none }

/-- A module that reports itself running. -/
def runningModule : Module :=
  { id := 2, Name := "running", IsRunning := true, startResult := none, stopResult := none }

/-- A module that is not running and starts and stops without error. -/
def idleModule : Module :=
  { id := 3, Name := "idle", IsRunning := false, startResult := none, stopResult := none }

/-- An instance whose `OnInit` succeeds and which handles no critical error. -/
def plainInstance : ServiceInstance :=
  { OnInit := none, OnCriticalError := fun _ => false }

/-- A fresh host: nothing started, no module, no instance. -/
def freshHost : serviceHost :=
  { state := .Uninitialized, locked := false, inst := none, modules := [],
    shutdownMu := false, inShutdown := false, shutdownReason := none, closeChan := none }

/-- A fresh host with one registered module whose start fails. -/
def failingHost : serviceHost :=
  { freshHost with inst := some plainInstance, modules := [failingModule] }

/-- A fresh host with an observer, in state `Uninitialized`. -/
def observedHost : serviceHost :=
  { freshHost with inst := some plainInstance }

/-- A running host: two modules, one waiter on the completion signal. -/
def runningHost : serviceHost :=
  { state := .Running, locked := true, inst := some plainInstance,
    modules := [runningModule, idleModule],
    shutdownMu := false, inShutdown := false, shutdownReason := none,
    closeChan := some { receivers := 1, delivered := [], closed := false } }

/-- The states in which a `shutdown` call has nothing left to do. -/
def shutdownSpent (s : serviceHost) : Prop :=
  s.shutdownReason.isSome = true ∨ IsRunning s = false ∨ s.shutdownMu = true

/-- The running host after `Stop("manual", 7)`. -/
def stoppedHost : serviceHost :=
  (Stop runningHost "manual" 7).host

/-- A second module that is not running and whose start fails. -/
def otherFailingModule : Module :=
  { id := 4, Name := "other", IsRunning := false, startResult := some "bang", stopResult := none }

/-- A fresh host with two registered modules whose starts both fail. -/
def racingHost : serviceHost :=
  { freshHost with modules := [failingModule, otherFailingModule] }

/-- What holds of a run of `startModules` over the registry `modules` at every
step: the map holds only errors of started modules that failed; a goroutine
past the receive belongs to such a module; a failed start is in the map unless
its goroutine is unfinished; the calls are `Start()` calls on modules that do
not report themselves running; and such a module has been started unless its
goroutine has yet to run. -/
def StartInv (modules : List Module) (r : StartRun) : Prop :=
  (∀ k v, (k, v) ∈ r.results →
    k ∈ modules ∧ k.IsRunning = false ∧ k.startResult = some v) ∧
  (∀ m ph, (m, ph) ∈ r.pending →
    m ∈ modules ∧
      ∀ e, ph = Phase.received e ∨ ph = Phase.assigning e →
        m.IsRunning = false ∧ m.startResult = some e) ∧
  (∀ m e, m ∈ modules → m.IsRunning = false → m.startResult = some e →
    (∃ ph, (m, ph) ∈ r.pending) ∨ ErrMap.get? r.results m = some e) ∧
  (∀ ev, ev ∈ r.calls → ∃ m, ev = Event.start m ∧ m ∈ modules ∧ m.IsRunning = false) ∧
  (∀ m, m ∈ modules → m.IsRunning = false →
    (m, Phase.launched) ∈ r.pending ∨ Event.start m ∈ r.calls)

/-- A host that has been shut down: the mutex is free, no shutdown is in
progress, `exit` is the recorded reason, and the completion signal is closed
after handing over `delivered`. -/
def shutDown (s : serviceHost) (exit : ServiceExit) (delivered : List ServiceExit) : Prop :=
  s.shutdownMu = false ∧ s.inShutdown = false ∧ s.shutdownReason = some exit ∧
    ∃ c : Chan, s.closeChan = some c ∧ c.closed = true ∧ c.delivered = delivered

/-! ## The request context (internal/fxcontext/context.go) -/

namespace fxcontext

/-- A `ulog.Log` value, by identity. -/
abbrev Log := Nat

/-- The `store` kept in the context. -/
structure store where
  log : Log
  deriving DecidableEq, Repr

/-- A `service.Host`, as far as this file uses it: what `Logger()` returns. -/
structure Host where
  Logger : Log
  deriving DecidableEq, Repr

/-- One `WithValue` layer of a `context.Context`. The key `_fxContextStore` has
an unexported type, so only this file stores under it, and always a `store`;
every other layer has another key. -/
inductive Entry where
  | fxContextStore (s : store)
  | other (key : Nat) (val : Nat)
  deriving DecidableEq, Repr

/-- A non-nil `context.Context`: its `WithValue` layers, the innermost first. -/
abbrev GoContext := List Entry

/-- `gcontext.WithValue(ctx, _fxContextStore, s)`. -/
def WithValue (ctx : GoContext) (s : store) : GoContext :=
  Entry.fxContextStore s :: ctx

/-- `ctx.Value(_fxContextStore)`: the innermost value under the key, `none`
(nil) when no layer has it. -/
def Value : GoContext → Option store
  | [] => none
  | Entry.fxContextStore s :: _ => some s
  | Entry.other _ _ :: rest => Value rest

/-- The `Context` of this package; `ctx` is its embedded `gcontext.Context`. -/
structure Context where
  ctx : GoContext
  deriving DecidableEq, Repr

/-- `New(ctx, host)`; a nil host is `none`. -/
def New (ctx : GoContext) (host : Option Host) : Context :=
  match host with
  | some h => { ctx := WithValue ctx { log := h.Logger } }
  | none => { ctx := ctx }

/-- `getStore`: the store found and the receiver after the call. `ulogLogger`
is what `ulog.Logger()` returns when it is called. -/
def Context.getStore (ulogLogger : Log) (c : Context) : store × Context :=
  match Value c.ctx with
  | none =>
    let fxctxStore : store := { log := ulogLogger }
    (fxctxStore, { ctx := WithValue c.ctx fxctxStore })
  | some fxctxStore => (fxctxStore, c)

/-- `Logger`: the logger returned and the receiver after the call. -/
def Context.Logger (ulogLogger : Log) (c : Context) : Log × Context :=
  ((c.getStore ulogLogger).1.log, (c.getStore ulogLogger).2)

/-- A run of `Logger()` calls on the same `Context`, one for each element of
`defaults` (what `ulog.Logger()` would return during that call): the loggers
returned, and the receiver at the end. -/
def Context.LoggerAll : Context → List Log → List Log × Context
  | c, [] => ([], c)
  | c, d :: ds =>
    ((c.Logger d).1 :: (Context.LoggerAll (c.Logger d).2 ds).1,
      (Context.LoggerAll (c.Logger d).2 ds).2)

/-- A context with two layers of other packages and no store. -/
def plainContext : GoContext :=
  [Entry.other 7 1, Entry.other 8 2]

end fxcontext

/-! ## The result map -/

theorem ErrMap.get?_set (r : ErrMap) (k m : Module) (e : GoError) :
    ErrMap.get? (ErrMap.set r k e) m = if k = m then some e else ErrMap.get? r m := by
  induction r with
  | nil => simp [ErrMap.set, ErrMap.get?]
  | cons p rest ih =>
    obtain ⟨k0, v0⟩ := p
    by_cases h0 : k0 = k
    · subst h0
      by_cases h1 : k0 = m <;> simp [ErrMap.set, ErrMap.get?, h1]
    · by_cases h1 : k0 = m
      · subst h1
        have h2 : ¬ k = k0 := fun h => h0 h.symm
        simp [ErrMap.set, ErrMap.get?, h0, h2]
      · simp [ErrMap.set, ErrMap.get?, h0, h1, ih]

theorem ErrMap.set_ne_nil (r : ErrMap) (k : Module) (e : GoError) :
    ErrMap.set r k e ≠ [] := by
  cases r with
  | nil => simp [ErrMap.set]
  | cons p rest =>
    obtain ⟨k0, v0⟩ := p
    by_cases h0 : k0 = k <;> simp [ErrMap.set, h0]

theorem ErrMap.mem_keys_set (r : ErrMap) (k m : Module) (e : GoError) :
    m ∈ (ErrMap.set r k e).map Prod.fst ↔ m = k ∨ m ∈ r.map Prod.fst := by
  induction r with
  | nil => simp [ErrMap.set]
  | cons p rest ih =>
    obtain ⟨k0, v0⟩ := p
    by_cases h0 : k0 = k
    · subst h0
      simp [ErrMap.set]
    · simp only [ErrMap.set, h0, if_false, List.map_cons, List.mem_cons, ih]
      tauto

theorem ErrMap.nodup_set (r : ErrMap) (k : Module) (e : GoError)
    (h : (r.map Prod.fst).Nodup) : ((ErrMap.set r k e).map Prod.fst).Nodup := by
  induction r with
  | nil => simp [ErrMap.set]
  | cons p rest ih =>
    obtain ⟨k0, v0⟩ := p
    simp only [List.map_cons, List.nodup_cons] at h
    by_cases h0 : k0 = k
    · subst h0
      simpa [ErrMap.set] using h
    · simp only [ErrMap.set, h0, if_false, List.map_cons, List.nodup_cons,
        ErrMap.mem_keys_set]
      refine ⟨?_, ih h.2⟩
      rintro (h1 | h1)
      · exact h1.elim
      · exact h.1 h1

theorem ErrMap.mem_set (r : ErrMap) (k m : Module) (v e : GoError)
    (h : (k, v) ∈ ErrMap.set r m e) : (k, v) = (m, e) ∨ (k, v) ∈ r := by
  induction r with
  | nil =>
    left
    simpa [ErrMap.set] using h
  | cons p rest ih =>
    obtain ⟨k0, v0⟩ := p
    by_cases h0 : k0 = m
    · simp only [ErrMap.set, h0, if_true, List.mem_cons] at h
      rcases h with h | h
      · exact Or.inl h
      · exact Or.inr (List.mem_cons_of_mem _ h)
    · simp only [ErrMap.set, h0, if_false, List.mem_cons] at h
      rcases h with h | h
      · exact Or.inr (by rw [h]; exact List.mem_cons_self _ _)
      · rcases ih h with h1 | h1
        · exact Or.inl h1
        · exact Or.inr (List.mem_cons_of_mem _ h1)

theorem ErrMap.mem_of_get? (r : ErrMap) (m : Module) (e : GoError)
    (h : ErrMap.get? r m = some e) : (m, e) ∈ r := by
  induction r with
  | nil => simp [ErrMap.get?] at h
  | cons p rest ih =>
    obtain ⟨k0, v0⟩ := p
    by_cases h0 : k0 = m
    · simp only [ErrMap.get?, h0, if_true, Option.some.injEq] at h
      rw [h0, h]
      exact List.mem_cons_self _ _
    · simp only [ErrMap.get?, h0, if_false] at h
      exact List.mem_cons_of_mem _ (ih h)

/-! ## startModules -/

theorem work_append (xs ys : List (Module × Phase)) :
    work (xs ++ ys) = work xs + work ys := by
  simp [work]

theorem work_cons (g : Module × Phase) (xs : List (Module × Phase)) :
    work (g :: xs) = g.2.cost + work xs := by
  simp [work]

theorem Phase.cost_pos (ph : Phase) : 0 < ph.cost := by
  cases ph <;> simp [Phase.cost]

theorem work_launched (ms : List Module) :
    work (ms.map (fun m => (m, Phase.launched))) = 3 * ms.length := by
  induction ms with
  | nil => rfl
  | cons m rest ih =>
    rw [List.map_cons, work_cons, ih, List.length_cons]
    simp only [Phase.cost]
    omega

/-- The unfinished goroutines, split at the one that takes the step. -/
theorem pending_split (r : StartRun) (i : Nat) (g : Module × Phase)
    (after : List (Module × Phase)) (hd : r.pending.drop i = g :: after) :
    r.pending = r.pending.take i ++ g :: after := by
  rw [← hd, List.take_append_drop]

/-- A step that does not run into a write in progress brings the goroutines
nearer to the end. -/
theorem stepGoroutine_work (r : StartRun) (i : Nat) (hi : i < r.pending.length) :
    (stepGoroutine r i).raced = true ∨
      work (stepGoroutine r i).pending + 1 ≤ work r.pending := by
  cases hd : r.pending.drop i with
  | nil =>
    have := List.drop_eq_nil_iff.1 hd
    omega
  | cons g after =>
    obtain ⟨m, ph⟩ := g
    have hw : work r.pending = work (r.pending.take i) + (ph.cost + work after) := by
      conv_lhs => rw [pending_split r i (m, ph) after hd]
      rw [work_append, work_cons]
    cases ph with
    | launched =>
      right
      cases hr : m.IsRunning <;> cases hs : m.startResult <;>
        simp [stepGoroutine, hd, hr, hs, hw, work_append, work_cons, Phase.cost] <;> omega
    | received e =>
      cases hb : mapBusy r.pending
      · right
        simp [stepGoroutine, hd, hb, hw, work_append, work_cons, Phase.cost]
        omega
      · left
        simp [stepGoroutine, hd, hb]
    | assigning e =>
      right
      simp [stepGoroutine, hd, hw, work_append, work_cons, Phase.cost]
      omega

theorem runGoroutines_raced (fuel : Nat) (sched : List Nat) (r : StartRun)
    (h : r.raced = true) : runGoroutines fuel sched r = r := by
  cases fuel <;> simp [runGoroutines, h]

/-- With fuel for all the steps left, the run ends with every goroutine done,
or with two overlapping writes. -/
theorem runGoroutines_done (fuel : Nat) (sched : List Nat) (r : StartRun)
    (h : work r.pending ≤ fuel) :
    (runGoroutines fuel sched r).raced = true ∨ (runGoroutines fuel sched r).pending = [] := by
  induction fuel generalizing sched r with
  | zero =>
    right
    cases hp : r.pending with
    | nil => simp [runGoroutines, hp]
    | cons g rest =>
      rw [hp, work_cons] at h
      have := Phase.cost_pos g.2
      omega
  | succ n ih =>
    cases hr : r.raced with
    | true =>
      left
      rw [runGoroutines_raced _ _ _ hr]
      exact hr
    | false =>
      cases hp : r.pending with
      | nil =>
        right
        simp [runGoroutines, hr, hp]
      | cons g rest =>
        have hlen : 0 < r.pending.length := by simp [hp]
        have hi : sched.headD 0 % r.pending.length < r.pending.length := Nat.mod_lt _ hlen
        have hrun : runGoroutines (n + 1) sched r =
            runGoroutines n sched.tail (stepGoroutine r (sched.headD 0 % r.pending.length)) := by
          simp [runGoroutines, hr, hp]
        rw [hrun]
        rcases stepGoroutine_work r _ hi with hs | hs
        · left
          rw [runGoroutines_raced _ _ _ hs]
          exact hs
        · exact ih _ _ (by omega)

/-- `startModules` returns, or two map writes overlapped: no goroutine is left
unfinished, whatever the schedule. -/
theorem startModules_done (s : serviceHost) (sched : List Nat) :
    (startModules s sched).raced = true ∨ (startModules s sched).pending = [] := by
  apply runGoroutines_done
  simp [work_launched]

/-- Every step of a goroutine keeps `StartInv`. -/
theorem stepGoroutine_inv (modules : List Module) (r : StartRun) (i : Nat)
    (h : StartInv modules r) : StartInv modules (stepGoroutine r i) := by
  cases hd : r.pending.drop i with
  | nil =>
    have hstep : stepGoroutine r i = r := by simp [stepGoroutine, hd]
    rw [hstep]
    exact h
  | cons g after =>
    obtain ⟨m, ph⟩ := g
    obtain ⟨ha, hb, hc, hcalls, he⟩ := h
    have hmem : ∀ x, x ∈ r.pending ↔
        x ∈ r.pending.take i ∨ x = (m, ph) ∨ x ∈ after := by
      intro x
      conv_lhs => rw [pending_split r i (m, ph) after hd]
      simp
    have hg : (m, ph) ∈ r.pending := (hmem _).2 (Or.inr (Or.inl rfl))
    have hmod : m ∈ modules := (hb m ph hg).1
    cases ph with
    | launched =>
      cases hr : m.IsRunning with
      | true =>
        have hstep : stepGoroutine r i =
            { r with pending := r.pending.take i ++ after } := by
          simp [stepGoroutine, hd, hr]
        rw [hstep]
        refine ⟨ha, ?_, ?_, hcalls, ?_⟩
        · intro k ph hk
          apply hb
          rw [hmem]
          rcases List.mem_append.1 hk with hk | hk
          · exact Or.inl hk
          · exact Or.inr (Or.inr hk)
        · intro k e hk1 hk2 hk3
          rcases hc k e hk1 hk2 hk3 with ⟨ph, hph⟩ | hget
          · left
            rcases (hmem _).1 hph with hx | hx | hx
            · exact ⟨ph, List.mem_append.2 (Or.inl hx)⟩
            · have hkm : k = m := congrArg Prod.fst hx
              rw [hkm, hr] at hk2
              cases hk2
            · exact ⟨ph, List.mem_append.2 (Or.inr hx)⟩
          · exact Or.inr hget
        · intro k hk1 hk2
          rcases he k hk1 hk2 with hph | hcall
          · left
            rcases (hmem _).1 hph with hx | hx | hx
            · exact List.mem_append.2 (Or.inl hx)
            · have hkm : k = m := congrArg Prod.fst hx
              rw [hkm, hr] at hk2
              cases hk2
            · exact List.mem_append.2 (Or.inr hx)
          · exact Or.inr hcall
      | false =>
        cases hs : m.startResult with
        | none =>
          have hstep : stepGoroutine r i =
              { r with pending := r.pending.take i ++ after,
                       calls := r.calls ++ [Event.start m] } := by
            simp [stepGoroutine, hd, hr, hs]
          rw [hstep]
          refine ⟨ha, ?_, ?_, ?_, ?_⟩
          · intro k ph hk
            apply hb
            rw [hmem]
            rcases List.mem_append.1 hk with hk | hk
            · exact Or.inl hk
            · exact Or.inr (Or.inr hk)
          · intro k e hk1 hk2 hk3
            rcases hc k e hk1 hk2 hk3 with ⟨ph, hph⟩ | hget
            · left
              rcases (hmem _).1 hph with hx | hx | hx
              · exact ⟨ph, List.mem_append.2 (Or.inl hx)⟩
              · have hkm : k = m := congrArg Prod.fst hx
                rw [hkm, hs] at hk3
                cases hk3
              · exact ⟨ph, List.mem_append.2 (Or.inr hx)⟩
            · exact Or.inr hget
          · intro ev hev
            rcases List.mem_append.1 hev with hev | hev
            · exact hcalls ev hev
            · exact ⟨m, by simpa using hev, hmod, hr⟩
          · intro k hk1 hk2
            rcases he k hk1 hk2 with hph | hcall
            · rcases (hmem _).1 hph with hx | hx | hx
              · exact Or.inl (List.mem_append.2 (Or.inl hx))
              · have hkm : k = m := congrArg Prod.fst hx
                right
                rw [hkm]
                exact List.mem_append.2 (Or.inr (List.mem_singleton.2 rfl))
              · exact Or.inl (List.mem_append.2 (Or.inr hx))
            · exact Or.inr (List.mem_append.2 (Or.inl hcall))
        | some e0 =>
          have hstep : stepGoroutine r i =
              { r with pending := r.pending.take i ++ (m, Phase.received e0) :: after,
                       calls := r.calls ++ [Event.start m] } := by
            simp [stepGoroutine, hd, hr, hs]
          rw [hstep]
          refine ⟨ha, ?_, ?_, ?_, ?_⟩
          · intro k ph hk
            rcases List.mem_append.1 hk with hk | hk
            · exact hb k ph ((hmem _).2 (Or.inl hk))
            · rcases List.mem_cons.1 hk with hk | hk
              · cases hk
                refine ⟨hmod, ?_⟩
                intro e hor
                rcases hor with hor | hor
                · cases hor
                  exact ⟨hr, hs⟩
                · cases hor
              · exact hb k ph ((hmem _).2 (Or.inr (Or.inr hk)))
          · intro k e hk1 hk2 hk3
            rcases hc k e hk1 hk2 hk3 with ⟨ph, hph⟩ | hget
            · left
              rcases (hmem _).1 hph with hx | hx | hx
              · exact ⟨ph, List.mem_append.2 (Or.inl hx)⟩
              · have hkm : k = m := congrArg Prod.fst hx
                rw [hkm]
                exact ⟨Phase.received e0,
                  List.mem_append.2 (Or.inr (List.mem_cons_self _ _))⟩
              · exact ⟨ph, List.mem_append.2 (Or.inr (List.mem_cons_of_mem _ hx))⟩
            · exact Or.inr hget
          · intro ev hev
            rcases List.mem_append.1 hev with hev | hev
            · exact hcalls ev hev
            · exact ⟨m, by simpa using hev, hmod, hr⟩
          · intro k hk1 hk2
            rcases he k hk1 hk2 with hph | hcall
            · rcases (hmem _).1 hph with hx | hx | hx
              · exact Or.inl (List.mem_append.2 (Or.inl hx))
              · have hkm : k = m := congrArg Prod.fst hx
                right
                rw [hkm]
                exact List.mem_append.2 (Or.inr (List.mem_singleton.2 rfl))
              · exact Or.inl (List.mem_append.2 (Or.inr (List.mem_cons_of_mem _ hx)))
            · exact Or.inr (List.mem_append.2 (Or.inl hcall))
    | received e0 =>
      have hfacts := (hb m _ hg).2 e0 (Or.inl rfl)
      cases hbusy : mapBusy r.pending with
      | true =>
        have hstep : stepGoroutine r i = { r with raced := true } := by
          simp [stepGoroutine, hd, hbusy]
        rw [hstep]
        exact ⟨ha, hb, hc, hcalls, he⟩
      | false =>
        have hstep : stepGoroutine r i =
            { r with pending := r.pending.take i ++ (m, Phase.assigning e0) :: after } := by
          simp [stepGoroutine, hd, hbusy]
        rw [hstep]
        refine ⟨ha, ?_, ?_, hcalls, ?_⟩
        · intro k ph hk
          rcases List.mem_append.1 hk with hk | hk
          · exact hb k ph ((hmem _).2 (Or.inl hk))
          · rcases List.mem_cons.1 hk with hk | hk
            · cases hk
              refine ⟨hmod, ?_⟩
              intro e hor
              rcases hor with hor | hor
              · cases hor
              · cases hor
                exact hfacts
            · exact hb k ph ((hmem _).2 (Or.inr (Or.inr hk)))
        · intro k e hk1 hk2 hk3
          rcases hc k e hk1 hk2 hk3 with ⟨ph, hph⟩ | hget
          · left
            rcases (hmem _).1 hph with hx | hx | hx
            · exact ⟨ph, List.mem_append.2 (Or.inl hx)⟩
            · have hkm : k = m := congrArg Prod.fst hx
              rw [hkm]
              exact ⟨Phase.assigning e0,
                List.mem_append.2 (Or.inr (List.mem_cons_self _ _))⟩
            · exact ⟨ph, List.mem_append.2 (Or.inr (List.mem_cons_of_mem _ hx))⟩
          · exact Or.inr hget
        · intro k hk1 hk2
          rcases he k hk1 hk2 with hph | hcall
          · left
            rcases (hmem _).1 hph with hx | hx | hx
            · exact List.mem_append.2 (Or.inl hx)
            · cases hx
            · exact List.mem_append.2 (Or.inr (List.mem_cons_of_mem _ hx))
          · exact Or.inr hcall
    | assigning e0 =>
      have hfacts := (hb m _ hg).2 e0 (Or.inr rfl)
      have hstep : stepGoroutine r i =
          { r with pending := r.pending.take i ++ after,
                   results := ErrMap.set r.results m e0 } := by
        simp [stepGoroutine, hd]
      rw [hstep]
      refine ⟨?_, ?_, ?_, hcalls, ?_⟩
      · intro k v hkv
        rcases ErrMap.mem_set _ _ _ _ _ hkv with hkv | hkv
        · cases hkv
          exact ⟨hmod, hfacts⟩
        · exact ha k v hkv
      · intro k ph hk
        apply hb
        rw [hmem]
        rcases List.mem_append.1 hk with hk | hk
        · exact Or.inl hk
        · exact Or.inr (Or.inr hk)
      · intro k e hk1 hk2 hk3
        by_cases hkm : m = k
        · right
          show ErrMap.get? (ErrMap.set r.results m e0) k = some e
          rw [ErrMap.get?_set, if_pos hkm]
          rw [← hkm, hfacts.2] at hk3
          exact hk3
        · rcases hc k e hk1 hk2 hk3 with ⟨ph, hph⟩ | hget
          · left
            rcases (hmem _).1 hph with hx | hx | hx
            · exact ⟨ph, List.mem_append.2 (Or.inl hx)⟩
            · exact absurd (congrArg Prod.fst hx).symm hkm
            · exact ⟨ph, List.mem_append.2 (Or.inr hx)⟩
          · right
            show ErrMap.get? (ErrMap.set r.results m e0) k = some e
            rw [ErrMap.get?_set, if_neg hkm]
            exact hget
      · intro k hk1 hk2
        rcases he k hk1 hk2 with hph | hcall
        · left
          rcases (hmem _).1 hph with hx | hx | hx
          · exact List.mem_append.2 (Or.inl hx)
          · cases hx
          · exact List.mem_append.2 (Or.inr hx)
        · exact Or.inr hcall

theorem runGoroutines_inv (modules : List Module) (fuel : Nat) (sched : List Nat)
    (r : StartRun) (h : StartInv modules r) :
    StartInv modules (runGoroutines fuel sched r) := by
  induction fuel generalizing sched r with
  | zero => exact h
  | succ n ih =>
    unfold runGoroutines
    split
    · exact h
    · split
      · exact h
      · exact ih _ _ (stepGoroutine_inv modules r _ h)

theorem startModules_inv (s : serviceHost) (sched : List Nat) :
    StartInv s.modules (startModules s sched) := by
  apply runGoroutines_inv
  refine ⟨?_, ?_, ?_, ?_, ?_⟩
  · intro k v hkv
    cases hkv
  · intro m ph hm
    obtain ⟨k, hk, hk2⟩ := List.mem_map.1 hm
    cases hk2
    refine ⟨hk, ?_⟩
    intro e hor
    rcases hor with hor | hor <;> cases hor
  · intro m e hm _ _
    exact Or.inl ⟨Phase.launched, List.mem_map.2 ⟨m, hm, rfl⟩⟩
  · intro ev hev
    cases hev
  · intro m hm _
    exact Or.inl (List.mem_map.2 ⟨m, hm, rfl⟩)

/-- A run of `startModules` in which no two map writes overlap returns, and
keeps the contract: `Start()` has been called on the registered modules that
do not report themselves running and on no other, and the map holds the error
of each started module that failed and nothing else. -/
theorem startModules_contract_of_not_raced (s : serviceHost) (sched : List Nat)
    (h : (startModules s sched).raced = false) :
    (startModules s sched).pending = [] ∧
    (∀ ev, ev ∈ (startModules s sched).calls → ∃ m, ev = Event.start m) ∧
    (∀ m, Event.start m ∈ (startModules s sched).calls ↔
      m ∈ s.modules ∧ m.IsRunning = false) ∧
    (∀ m e, ErrMap.get? (startModules s sched).results m = some e ↔
      m ∈ s.modules ∧ m.IsRunning = false ∧ m.startResult = some e) ∧
    ((startModules s sched).results = [] ↔
      ∀ m ∈ s.modules, m.IsRunning = false → m.startResult = none) := by
  have hdone : (startModules s sched).pending = [] := by
    rcases startModules_done s sched with h1 | h1
    · rw [h] at h1
      cases h1
    · exact h1
  obtain ⟨ha, _, hc, hcalls, he⟩ := startModules_inv s sched
  have hget : ∀ m e, ErrMap.get? (startModules s sched).results m = some e ↔
      m ∈ s.modules ∧ m.IsRunning = false ∧ m.startResult = some e := by
    intro m e
    constructor
    · intro hg
      exact ha m e (ErrMap.mem_of_get? _ m e hg)
    · rintro ⟨h1, h2, h3⟩
      rcases hc m e h1 h2 h3 with ⟨ph, hph⟩ | hg
      · rw [hdone] at hph
        cases hph
      · exact hg
  refine ⟨hdone, ?_, ?_, hget, ?_⟩
  · intro ev hev
    obtain ⟨m, hm, _⟩ := hcalls ev hev
    exact ⟨m, hm⟩
  · intro m
    constructor
    · intro hm
      obtain ⟨k, hk, hk1, hk2⟩ := hcalls _ hm
      cases hk
      exact ⟨hk1, hk2⟩
    · rintro ⟨h1, h2⟩
      rcases he m h1 h2 with hph | hcall
      · rw [hdone] at hph
        cases hph
      · exact hcall
  · constructor
    · intro hnil m hm hr
      cases hs : m.startResult with
      | none => rfl
      | some e =>
        have hg := (hget m e).2 ⟨hm, hr, hs⟩
        rw [hnil] at hg
        cases hg
    · intro hall
      apply List.eq_nil_iff_forall_not_mem.2
      rintro ⟨k, v⟩ hkv
      obtain ⟨h1, h2, h3⟩ := ha k v hkv
      rw [hall k h1 h2] at h3
      cases h3

/-! ## Start -/

/-- Whenever a module that is not running fails to start, `Start` does not
return: it ends in the nil dereference of line 149 or, when two map writes of
`startModules` overlapped, in the runtime's `concurrent map writes`. In both
cases neither `shutdown` nor `stopModules` has run. -/
theorem Start_panics_of_start_error (s : serviceHost) (w : Bool) (sched : List Nat)
    (hmu : s.shutdownMu = false) (hin : s.inShutdown = false)
    (hrun : IsRunning s = false)
    (hinit : ∀ i, s.inst = some i → i.OnInit = none)
    (m : Module) (e : GoError)
    (hm : m ∈ s.modules) (hr : m.IsRunning = false) (he : m.startResult = some e) :
    ((Start s w sched).out = Outcome.panicked "nil pointer dereference" ∨
        (Start s w sched).out = Outcome.panicked "concurrent map writes") ∧
      (Start s w sched).host.shutdownReason = none ∧
      (∀ k, Event.stop k ∉ (Start s w sched).trace) ∧
      (∀ x, Event.send x ∉ (Start s w sched).trace) := by
  have hrun2 : s.closeChan = none := by
    cases hc : s.closeChan with
    | none => rfl
    | some c => simp [IsRunning, hc] at hrun
  have hcalls : ∀ ev, ev ∈ (startModules s sched).calls → ∃ k, ev = Event.start k := by
    intro ev hev
    obtain ⟨k, hk, _⟩ := (startModules_inv s sched).2.2.2.1 ev hev
    exact ⟨k, hk⟩
  have hstop : ∀ k, Event.stop k ∉ (startModules s sched).calls := by
    intro k hk
    obtain ⟨k2, hk2⟩ := hcalls _ hk
    cases hk2
  have hsend : ∀ x, Event.send x ∉ (startModules s sched).calls := by
    intro x hx
    obtain ⟨k2, hk2⟩ := hcalls _ hx
    cases hk2
  have hpos : (startModules s sched).raced = false →
      0 < (startModules s sched).results.length := by
    intro hnr
    apply List.length_pos.2
    intro hnil
    have hg := ((startModules_contract_of_not_raced s sched hnr).2.2.2.1 m e).2 ⟨hm, hr, he⟩
    rw [hnil] at hg
    cases hg
  have hinit2 : (match s.inst with
      | some i => ([Event.onInit], i.OnInit)
      | none => (([] : List Event), (none : Option GoError))).2 = none := by
    cases hi : s.inst with
    | none => rfl
    | some i => exact hinit i hi
  have htrace : ∀ ev, ev ∈ (match s.inst with
      | some i => ([Event.onInit], i.OnInit)
      | none => (([] : List Event), (none : Option GoError))).1 → ev = Event.onInit := by
    intro ev hev
    cases hi : s.inst with
    | none => rw [hi] at hev; cases hev
    | some i => rw [hi] at hev; simpa using hev
  simp only [startModules] at hcalls hstop hsend hpos
  simp only [Start, startModules, hmu, hin, hrun2, IsRunning, Option.isSome_none,
    Bool.false_eq_true, if_false, hinit2]
  generalize runGoroutines (3 * s.modules.length) sched _ = st at hcalls hstop hsend hpos ⊢
  cases hraced : st.raced with
  | true =>
    simp only [if_true]
    refine ⟨Or.inr trivial, trivial, ?_, ?_⟩
    · intro k hk
      rcases List.mem_append.1 hk with hk | hk
      · cases htrace _ hk
      · exact hstop k hk
    · intro x hx
      rcases List.mem_append.1 hx with hx | hx
      · cases htrace _ hx
      · exact hsend x hx
  | false =>
    have hp := hpos hraced
    simp only [Bool.false_eq_true, if_false, gt_iff_lt, hp, if_true]
    refine ⟨Or.inl trivial, trivial, ?_, ?_⟩
    · intro k hk
      rcases List.mem_append.1 hk with hk | hk
      · cases htrace _ hk
      · exact hstop k hk
    · intro x hx
      rcases List.mem_append.1 hx with hx | hx
      · cases htrace _ hx
      · exact hsend x hx

/-- C1 (refuted on the code): a host that is not running, with an `OnInit` that
succeeds and one registered module whose start reports an error. `Start(false)`
does not return the start error: it faults with a nil pointer dereference at
`errChan <- *s.shutdownReason`, after `OnInit` and the module start, and before
`shutdown` is reached; no module is stopped and no shutdown reason is recorded.
With one module the schedule of the goroutines makes no difference. -/
theorem C1_Start_faults_on_module_start_error :
    ∀ sched : List Nat,
      (Start failingHost false sched).out = Outcome.panicked "nil pointer dereference" ∧
      (Start failingHost false sched).trace = [Event.onInit, Event.start failingModule] ∧
      (Start failingHost false sched).host.shutdownReason = none ∧
      (Start failingHost false sched).host.closeChan = some Chan.make := by
  intro sched
  simp [Start, startModules, runGoroutines, stepGoroutine, failingHost, freshHost,
    failingModule, plainInstance, IsRunning, Nat.mod_one, mapBusy, Phase.isAssigning,
    ErrMap.set]

/-! ## transitionState -/

theorem transitionLoop_stuck (fuel : Nat) (svc : serviceHost) (target : ServiceState)
    (evs : List Event) (h : svc.state < target) :
    (transitionLoop fuel svc target evs).out = Outcome.unfinished ∧
      (transitionLoop fuel svc target evs).host = svc := by
  induction fuel generalizing evs with
  | zero => simp [transitionLoop, h]
  | succ n ih =>
    have hb : (transitionBody svc).1 = svc := rfl
    simp only [transitionLoop, h, if_true, hb]
    exact ih _

theorem transitionLoop_stuck_trace (fuel : Nat) (svc : serviceHost)
    (target : ServiceState) (evs : List Event) (ev : Event)
    (h : svc.state < target) (hev : (transitionBody svc).2 = [ev]) :
    (transitionLoop fuel svc target evs).trace = evs ++ List.replicate fuel ev := by
  induction fuel generalizing evs with
  | zero => simp [transitionLoop, h]
  | succ n ih =>
    have hb : (transitionBody svc).1 = svc := rfl
    simp only [transitionLoop, h, if_true, hb, hev]
    rw [ih, List.replicate_succ]
    simp

/-- A forward request never returns, whatever the two states: the loop leaves
`svc.state` as it was, so its condition stays true. -/
theorem transitionState_never_returns (fuel : Nat) (svc : serviceHost)
    (target : ServiceState) (h : svc.state < target) :
    (transitionState fuel svc target).out = Outcome.unfinished ∧
      (transitionState fuel svc target).host = svc := by
  have hn : ¬ target < svc.state := by
    intro h2
    exact absurd h (Nat.lt_asymm h2)
  simp only [transitionState, hn, if_false]
  exact transitionLoop_stuck fuel svc target [] h

/-- A request for the current state returns at once, without a call. -/
theorem transitionState_same (fuel : Nat) (svc : serviceHost) :
    (transitionState fuel svc svc.state).out = Outcome.returned () ∧
      (transitionState fuel svc svc.state).host = svc ∧
      (transitionState fuel svc svc.state).trace = [] := by
  have hn : ¬ svc.state < svc.state := Nat.lt_irrefl _
  cases fuel <;> simp [transitionState, transitionLoop, hn]

/-- C3 (refuted on the code): from `Uninitialized`, `transitionState(Running)`
does not terminate. Whatever the number of loop turns, it is still running, the
current state is still `Uninitialized`, and the observer has been told
`(Uninitialized, Initialized)` once per turn and nothing else. -/
theorem C3_transitionState_does_not_advance :
    ∀ fuel : Nat,
      (transitionState fuel observedHost ServiceState.Running).out = Outcome.unfinished ∧
      (transitionState fuel observedHost ServiceState.Running).host.state =
        ServiceState.Uninitialized ∧
      (transitionState fuel observedHost ServiceState.Running).trace =
        List.replicate fuel
          (Event.onStateChange ServiceState.Uninitialized ServiceState.Initialized) := by
  intro fuel
  have h : observedHost.state < ServiceState.Running := by decide
  have hs := transitionState_never_returns fuel observedHost ServiceState.Running h
  refine ⟨hs.1, by rw [hs.2]; rfl, ?_⟩
  have hn : ¬ ServiceState.Running < observedHost.state := by decide
  simp only [transitionState, hn, if_false]
  rw [transitionLoop_stuck_trace fuel observedHost ServiceState.Running []
    (Event.onStateChange ServiceState.Uninitialized ServiceState.Initialized) h rfl]
  simp

/-- C4: a request for a state below the current one panics; the host, its state
included, is what it was, and the observer is not called. -/
theorem C4_transitionState_backward_panics (fuel : Nat) (svc : serviceHost)
    (target : ServiceState) (h : target < svc.state) :
    (transitionState fuel svc target).out = Outcome.panicked "Can't down from state" ∧
      (transitionState fuel svc target).host = svc ∧
      (transitionState fuel svc target).host.state = svc.state ∧
      (transitionState fuel svc target).trace = [] := by
  simp [transitionState, h]

theorem C4_transitionState_backward_panics_witness :
    ServiceState.Initialized < runningHost.state ∧
      (transitionState 5 runningHost ServiceState.Initialized).out =
        Outcome.panicked "Can't down from state" ∧
      (transitionState 5 runningHost ServiceState.Initialized).host = runningHost ∧
      (transitionState 5 runningHost ServiceState.Initialized).host.state =
        runningHost.state ∧
      (transitionState 5 runningHost ServiceState.Initialized).trace = [] :=
  ⟨by decide, C4_transitionState_backward_panics 5 runningHost ServiceState.Initialized
    (by decide)⟩

/-! ## shutdown -/

/-- A `shutdown` that finds the mutex held waits at `Lock`: nothing happens. -/
theorem shutdown_mutex_held (s : serviceHost) (err : Option GoError) (reason : String)
    (exitCode : Option Int) (hmu : s.shutdownMu = true) :
    (shutdown s err reason exitCode).host = s ∧
      (shutdown s err reason exitCode).trace = [] ∧
      (shutdown s err reason exitCode).out = Outcome.blocked := by
  simp [shutdown, hmu]

/-- The early return of `shutdown` (line 79): no call on a collaborator, and
the shutdown reason, the completion signal and the registry are left alone. -/
theorem shutdown_noop (s : serviceHost) (err : Option GoError) (reason : String)
    (exitCode : Option Int)
    (h : s.shutdownReason.isSome = true ∨ IsRunning s = false) :
    (shutdown s err reason exitCode).trace = [] ∧
      (shutdown s err reason exitCode).host.shutdownReason = s.shutdownReason ∧
      (shutdown s err reason exitCode).host.closeChan = s.closeChan ∧
      (shutdown s err reason exitCode).host.modules = s.modules ∧
      (s.shutdownMu = false →
        (shutdown s err reason exitCode).out = Outcome.returned (false, none)) := by
  cases hmu : s.shutdownMu with
  | true => simp [shutdown, hmu]
  | false =>
    have hc : s.shutdownReason.isSome = true ∨ s.closeChan = none := by
      rcases h with h | h
      · exact Or.inl h
      · right
        cases hcc : s.closeChan with
        | none => rfl
        | some c => simp [IsRunning, hcc] at h
    simp [shutdown, hmu, IsRunning, hc, shutdownDeferred]

/-- After any `shutdown` call, a further call has nothing left to do. -/
theorem shutdown_spent (s : serviceHost) (err : Option GoError) (reason : String)
    (exitCode : Option Int) :
    shutdownSpent (shutdown s err reason exitCode).host := by
  cases hmu : s.shutdownMu with
  | true =>
    have h := shutdown_mutex_held s err reason exitCode hmu
    rw [shutdownSpent, h.1]
    exact Or.inr (Or.inr hmu)
  | false =>
    by_cases hc : s.shutdownReason.isSome = true ∨ IsRunning s = false
    · have h := shutdown_noop s err reason exitCode hc
      rcases hc with hc | hc
      · left
        rw [h.2.1]
        exact hc
      · right
        left
        simp only [IsRunning] at hc ⊢
        rw [h.2.2.1]
        exact hc
    · left
      have h1 : s.shutdownReason = none := by
        cases hr : s.shutdownReason with
        | none => rfl
        | some x => exact absurd (Or.inl (by simp [hr])) hc
      obtain ⟨c, h2⟩ : ∃ c, s.closeChan = some c := by
        cases hr : s.closeChan with
        | none => exact absurd (Or.inr (by simp [IsRunning, hr])) hc
        | some c => exact ⟨c, rfl⟩
      by_cases hcl : c.closed = true
      · simp [shutdown, hmu, h1, h2, IsRunning, hcl, shutdownDeferred]
      · by_cases hrc : c.receivers = 0
        · simp [shutdown, hmu, h1, h2, IsRunning, hcl, hrc]
        · simp [shutdown, hmu, h1, h2, IsRunning, hcl, hrc, shutdownDeferred]

/-- In a spent state `shutdown` is without effect, and leaves a spent state. -/
theorem shutdown_of_spent (s : serviceHost) (err : Option GoError) (reason : String)
    (exitCode : Option Int) (h : shutdownSpent s) :
    (shutdown s err reason exitCode).trace = [] ∧
      (shutdown s err reason exitCode).host.shutdownReason = s.shutdownReason ∧
      (shutdown s err reason exitCode).host.closeChan = s.closeChan ∧
      (shutdown s err reason exitCode).host.modules = s.modules ∧
      ((shutdown s err reason exitCode).out = Outcome.returned (false, none) ∨
        (shutdown s err reason exitCode).out = Outcome.blocked) := by
  cases hmu : s.shutdownMu with
  | true =>
    have h1 := shutdown_mutex_held s err reason exitCode hmu
    refine ⟨h1.2.1, ?_, ?_, ?_, Or.inr h1.2.2⟩ <;> rw [h1.1]
  | false =>
    have hc : s.shutdownReason.isSome = true ∨ IsRunning s = false := by
      rcases h with h | h | h
      · exact Or.inl h
      · exact Or.inr h
      · rw [hmu] at h
        cases h
    have h1 := shutdown_noop s err reason exitCode hc
    exact ⟨h1.1, h1.2.1, h1.2.2.1, h1.2.2.2.1, Or.inl (h1.2.2.2.2 hmu)⟩

/-- From a spent state, a whole sequence of `shutdown` calls is without effect. -/
theorem shutdownAll_of_spent (cs : List ShutdownCall) (s : serviceHost)
    (h : shutdownSpent s) :
    (shutdownAll s cs).2.1 = [] ∧
      (shutdownAll s cs).1.shutdownReason = s.shutdownReason ∧
      (shutdownAll s cs).1.closeChan = s.closeChan ∧
      (shutdownAll s cs).1.modules = s.modules ∧
      (∀ o ∈ (shutdownAll s cs).2.2,
        o = Outcome.returned (false, none) ∨ o = Outcome.blocked) := by
  induction cs generalizing s with
  | nil => simp [shutdownAll]
  | cons c cs ih =>
    have h1 := shutdown_of_spent s c.err c.reason c.exitCode h
    have h2 := ih (shutdown s c.err c.reason c.exitCode).host
      (shutdown_spent s c.err c.reason c.exitCode)
    simp only [shutdownAll]
    refine ⟨by rw [h1.1, h2.1]; rfl, by rw [h2.2.1, h1.2.1], by rw [h2.2.2.1, h1.2.2.1],
      by rw [h2.2.2.2.1, h1.2.2.2.1], ?_⟩
    intro o ho
    rcases List.mem_cons.1 ho with ho | ho
    · rw [ho]
      exact h1.2.2.2.2
    · exact h2.2.2.2.2 o ho

/-- C2: `shutdown` is idempotent. On a host with a shutdown reason already
recorded, or not running, `shutdown` calls nothing (no module `Stop`, no
`OnShutdown`, nothing sent on the completion signal), leaves `shutdownReason`,
`closeChan` and the module list as they were, and, once past `Lock`, returns
`(false, nil)`. And in any sequence of `shutdown` calls on any host, all the
calls made on collaborators are those of the first call, the three fields are
as the first call left them, and every later call returns `(false, nil)` or
waits at `Lock`. -/
theorem C2_shutdown_idempotent (s : serviceHost) (err : Option GoError) (reason : String)
    (exitCode : Option Int)
    (h : s.shutdownReason.isSome = true ∨ IsRunning s = false) :
    ((shutdown s err reason exitCode).trace = [] ∧
      (shutdown s err reason exitCode).host.shutdownReason = s.shutdownReason ∧
      (shutdown s err reason exitCode).host.closeChan = s.closeChan ∧
      (shutdown s err reason exitCode).host.modules = s.modules ∧
      (s.shutdownMu = false →
        (shutdown s err reason exitCode).out = Outcome.returned (false, none))) ∧
    (∀ (s0 : serviceHost) (c : ShutdownCall) (cs : List ShutdownCall),
      (shutdownAll s0 (c :: cs)).2.1 = (shutdown s0 c.err c.reason c.exitCode).trace ∧
      (shutdownAll s0 (c :: cs)).1.shutdownReason =
        (shutdown s0 c.err c.reason c.exitCode).host.shutdownReason ∧
      (shutdownAll s0 (c :: cs)).1.closeChan =
        (shutdown s0 c.err c.reason c.exitCode).host.closeChan ∧
      (shutdownAll s0 (c :: cs)).1.modules =
        (shutdown s0 c.err c.reason c.exitCode).host.modules ∧
      (∀ o ∈ (shutdownAll s0 (c :: cs)).2.2.tail,
        o = Outcome.returned (false, none) ∨ o = Outcome.blocked)) := by
  refine ⟨shutdown_noop s err reason exitCode h, ?_⟩
  intro s0 c cs
  have h2 := shutdownAll_of_spent cs (shutdown s0 c.err c.reason c.exitCode).host
    (shutdown_spent s0 c.err c.reason c.exitCode)
  simp only [shutdownAll, List.tail_cons]
  exact ⟨by rw [h2.1]; simp, h2.2.1, h2.2.2.1, h2.2.2.2.1, h2.2.2.2.2⟩

theorem C2_shutdown_idempotent_witness :
    stoppedHost.shutdownReason.isSome = true ∧
      (shutdown stoppedHost (some "boom") "" none).trace = [] ∧
      (shutdown stoppedHost (some "boom") "" none).host.shutdownReason =
        stoppedHost.shutdownReason ∧
      (shutdown stoppedHost (some "boom") "" none).out = Outcome.returned (false, none) :=
  ⟨rfl,
    (C2_shutdown_idempotent stoppedHost (some "boom") "" none (Or.inl rfl)).1.1,
    (C2_shutdown_idempotent stoppedHost (some "boom") "" none (Or.inl rfl)).1.2.1,
    (C2_shutdown_idempotent stoppedHost (some "boom") "" none (Or.inl rfl)).1.2.2.2.2 rfl⟩

theorem mkShutdownReason_Error (err : Option GoError) (reason : String)
    (exitCode : Option Int) : (mkShutdownReason err reason exitCode).Error = err := by
  cases err <;> cases exitCode <;> simp [mkShutdownReason] <;> split <;> rfl

theorem mkShutdownReason_ExitCode (err : Option GoError) (reason : String)
    (exitCode : Option Int) :
    (mkShutdownReason err reason exitCode).ExitCode =
      match exitCode with
      | some c => c
      | none => if err.isSome then 1 else 0 := by
  cases err <;> cases exitCode <;> simp [mkShutdownReason]

/-- The `Reason` the code records: with an error, the error message replaces a
reason that is not empty, and an empty reason stays empty. -/
theorem mkShutdownReason_Reason (err : Option GoError) (reason : String)
    (exitCode : Option Int) :
    (mkShutdownReason err reason exitCode).Reason =
      match err with
      | some e => if reason ≠ "" then e else reason
      | none => reason := by
  cases err <;> cases exitCode <;> simp [mkShutdownReason] <;> split <;> simp_all

/-- An effective `shutdown` records the `ServiceExit` built from its arguments,
whether or not the send on the completion signal then goes through. -/
theorem shutdown_records (s : serviceHost) (err : Option GoError) (reason : String)
    (exitCode : Option Int)
    (hmu : s.shutdownMu = false) (hr : s.shutdownReason = none)
    (hrun : IsRunning s = true) :
    (shutdown s err reason exitCode).host.shutdownReason =
      some (mkShutdownReason err reason exitCode) := by
  obtain ⟨c, hc⟩ : ∃ c, s.closeChan = some c := by
    cases hcc : s.closeChan with
    | none => simp [IsRunning, hcc] at hrun
    | some c => exact ⟨c, rfl⟩
  by_cases hcl : c.closed = true
  · simp [shutdown, hmu, hr, hc, IsRunning, hcl, shutdownDeferred]
  · by_cases hrc : c.receivers = 0
    · simp [shutdown, hmu, hr, hc, IsRunning, hcl, hrc]
    · simp [shutdown, hmu, hr, hc, IsRunning, hcl, hrc, shutdownDeferred]

/-- C5 (refuted on the code): on a running host with no reason recorded,
`shutdown(E, "", nil)` records `Reason = ""`, not `E.Error()`; and
`shutdown(E, "manual", nil)` records `Reason = E.Error()`, the supplied reason
being lost: the test of line 90 is `reason != ""`. Without an error,
`shutdown(nil, "manual", 7)` records `Reason = "manual"`. -/
theorem C5_shutdown_reason_guard_inverted :
    (shutdown runningHost (some "boom") "" none).host.shutdownReason =
        some { Reason := "", Error := some "boom", ExitCode := 1 } ∧
      (shutdown runningHost (some "boom") "manual" none).host.shutdownReason =
        some { Reason := "boom", Error := some "boom", ExitCode := 1 } ∧
      (shutdown runningHost none "manual" (some 7)).host.shutdownReason =
        some { Reason := "manual", Error := none, ExitCode := 7 } ∧
      (shutdown runningHost (some "boom") "" none).out =
        Outcome.returned (true, some "boom") := by
  refine ⟨rfl, rfl, rfl, rfl⟩

/-- C6: an effective `shutdown(err, reason, exitCode)` (mutex free, host running,
no reason recorded) records a `ServiceExit` whose `ExitCode` is the explicit
code when one is given, otherwise 1 when an error is supplied, otherwise 0, and
whose `Error` is the supplied error; `Stop(reason, code)` records `code` and no
error. -/
theorem C6_shutdown_exit_code_precedence (s : serviceHost) (err : Option GoError)
    (reason : String) (exitCode : Option Int)
    (hmu : s.shutdownMu = false) (hr : s.shutdownReason = none)
    (hrun : IsRunning s = true) :
    (∃ exit : ServiceExit,
      (shutdown s err reason exitCode).host.shutdownReason = some exit ∧
      exit.ExitCode =
        (match exitCode with
          | some c => c
          | none => if err.isSome then 1 else 0) ∧
      exit.Error = err) ∧
    (∀ code : Int, ∃ exit : ServiceExit,
      (Stop s reason code).host.shutdownReason = some exit ∧
      exit.ExitCode = code ∧ exit.Error = none) := by
  refine ⟨⟨mkShutdownReason err reason exitCode,
    shutdown_records s err reason exitCode hmu hr hrun,
    mkShutdownReason_ExitCode err reason exitCode,
    mkShutdownReason_Error err reason exitCode⟩, ?_⟩
  intro code
  refine ⟨mkShutdownReason none reason (some code), ?_, ?_, ?_⟩
  · simpa [Stop] using shutdown_records s none reason (some code) hmu hr hrun
  · simpa using mkShutdownReason_ExitCode none reason (some code)
  · exact mkShutdownReason_Error none reason (some code)

theorem C6_shutdown_exit_code_precedence_witness :
    (∃ exit : ServiceExit,
      (shutdown runningHost (some "boom") "" none).host.shutdownReason = some exit ∧
      exit.ExitCode =
        (match (none : Option Int) with
          | some c => c
          | none => if (some "boom" : Option GoError).isSome then 1 else 0) ∧
      exit.Error = some "boom") ∧
    (∀ code : Int, ∃ exit : ServiceExit,
      (Stop runningHost "" code).host.shutdownReason = some exit ∧
      exit.ExitCode = code ∧ exit.Error = none) ∧
    runningHost.shutdownMu = false ∧ runningHost.shutdownReason = none ∧
    IsRunning runningHost = true :=
  ⟨(C6_shutdown_exit_code_precedence runningHost (some "boom") "" none rfl rfl rfl).1,
    (C6_shutdown_exit_code_precedence runningHost (some "boom") "" none rfl rfl rfl).2,
    rfl, rfl, rfl⟩

/-! ## stopModules -/

/-- `stopModules` calls `Stop` on the modules that report themselves not
running, in registry order, and on no other. -/
theorem stopLoop_trace (ms : List Module) (evs : List Event) (results : ErrMap) :
    (stopLoop ms (evs, results)).1 =
      evs ++ (ms.filter (fun m => !m.IsRunning)).map Event.stop := by
  induction ms generalizing evs results with
  | nil => simp [stopLoop]
  | cons m rest ih =>
    cases hr : m.IsRunning <;> cases hs : m.stopResult <;>
      simp [stopLoop, hr, hs, ih]

/-- What an effective `shutdown` on a host with a waiting receiver does, in
order: the `Stop` calls of `stopModules`, then the send and the close of the
completion signal, then `OnShutdown`. -/
theorem shutdown_trace (s : serviceHost) (err : Option GoError) (reason : String)
    (exitCode : Option Int) (c : Chan)
    (hmu : s.shutdownMu = false) (hr : s.shutdownReason = none)
    (hc : s.closeChan = some c) (hcl : c.closed = false) (hrc : c.receivers ≠ 0) :
    (shutdown s err reason exitCode).trace =
      (s.modules.filter (fun m => !m.IsRunning)).map Event.stop ++
        [Event.send (mkShutdownReason err reason exitCode), Event.close] ++
        (if s.inst.isSome then [Event.onShutdown (mkShutdownReason err reason exitCode)]
          else []) ∧
      (shutdown s err reason exitCode).out = Outcome.returned (true, err) := by
  simp [shutdown, hmu, hr, hc, IsRunning, hcl, hrc, shutdownDeferred, stopModules,
    stopLoop_trace]

/-- C7 (refuted on the code): a running host with no reason recorded, a waiter on
the completion signal and two registered modules, one reporting itself running
and one not. The effective shutdown calls `Stop` on the module that is not
running only, then publishes and calls `OnShutdown`: the running module is never
asked to stop. -/
theorem C7_shutdown_skips_running_modules :
    runningHost.modules = [runningModule, idleModule] ∧
      (shutdown runningHost none "manual" (some 7)).trace =
        [Event.stop idleModule,
          Event.send { Reason := "manual", Error := none, ExitCode := 7 },
          Event.close,
          Event.onShutdown { Reason := "manual", Error := none, ExitCode := 7 }] ∧
      Event.stop runningModule ∉ (shutdown runningHost none "manual" (some 7)).trace ∧
      (shutdown runningHost none "manual" (some 7)).out = Outcome.returned (true, none) := by
  refine ⟨rfl, rfl, by decide, rfl⟩

/-! ## startModules: the unlocked map -/

theorem ErrMap.mem_keys_iff (r : ErrMap) (m : Module) :
    m ∈ r.map Prod.fst ↔ (ErrMap.get? r m).isSome = true := by
  induction r with
  | nil => simp [ErrMap.get?]
  | cons p rest ih =>
    obtain ⟨k, v⟩ := p
    by_cases hk : k = m
    · simp [ErrMap.get?, hk]
    · have hk2 : ¬ m = k := fun h => hk h.symm
      simp [ErrMap.get?, hk, hk2, ih]

/-- C8 (refuted on the code): two registered modules, neither running, whose
starts both fail. Under the schedule in which each goroutine calls `Start()`
and receives its error before either writes, the second `results[m] = startError`
begins while the first is in progress: the two unlocked map writes overlap, the
map holds neither error, and `Start` ends in the runtime's
`concurrent map writes` instead of a map with both modules. Under the schedule
that lets one goroutine finish before the other runs, the same registry gives
the map with both errors. -/
theorem C8_startModules_map_writes_race :
    racingHost.modules = [failingModule, otherFailingModule] ∧
    (startModules racingHost [0, 1, 0, 1]).raced = true ∧
    (startModules racingHost [0, 1, 0, 1]).calls =
      [Event.start failingModule, Event.start otherFailingModule] ∧
    (startModules racingHost [0, 1, 0, 1]).results = [] ∧
    (Start racingHost false [0, 1, 0, 1]).out = Outcome.panicked "concurrent map writes" ∧
    (startModules racingHost []).raced = false ∧
    (startModules racingHost []).results =
      [(failingModule, "boom"), (otherFailingModule, "bang")] := by
  refine ⟨rfl, rfl, rfl, rfl, rfl, rfl, rfl⟩

/-! ## The registry lock -/

theorem shutdown_locked (s : serviceHost) (err : Option GoError) (reason : String)
    (exitCode : Option Int) :
    (shutdown s err reason exitCode).host.locked = s.locked ∧
      (shutdown s err reason exitCode).host.modules = s.modules := by
  unfold shutdown
  split
  · exact ⟨rfl, rfl⟩
  · dsimp only
    split
    · exact ⟨rfl, rfl⟩
    · split
      · exact ⟨rfl, rfl⟩
      · split
        · exact ⟨rfl, rfl⟩
        · split <;> exact ⟨rfl, rfl⟩

theorem Start_locked (s : serviceHost) (w : Bool) (sched : List Nat) :
    (Start s w sched).host.locked = true ∧ (Start s w sched).host.modules = s.modules := by
  unfold Start
  dsimp only
  repeat' split
  all_goals exact ⟨rfl, rfl⟩

theorem transitionLoop_host (fuel : Nat) (svc : serviceHost) (target : ServiceState)
    (evs : List Event) : (transitionLoop fuel svc target evs).host = svc := by
  induction fuel generalizing evs with
  | zero =>
    unfold transitionLoop
    split <;> rfl
  | succ n ih =>
    unfold transitionLoop
    split
    · exact ih _
    · rfl

theorem transitionState_host (fuel : Nat) (svc : serviceHost) (target : ServiceState) :
    (transitionState fuel svc target).host = svc := by
  unfold transitionState
  split
  · rfl
  · exact transitionLoop_host fuel svc target []

theorem Call.run_locked (s : serviceHost) (c : Call) (h : s.locked = true) :
    (Call.run s c).locked = true := by
  cases c with
  | addModule m => simp [Call.run, Fx.addModule, h]
  | start w sched => exact (Start_locked s w sched).1
  | stop reason exitCode =>
    simp only [Call.run, Stop]
    rw [(shutdown_locked s none reason (some exitCode)).1]
    exact h
  | shutdown err reason exitCode =>
    simp only [Call.run]
    rw [(shutdown_locked s err reason exitCode).1]
    exact h
  | criticalError err =>
    simp only [Call.run, OnCriticalError]
    split
    · exact h
    · split
      · dsimp only
        rw [(shutdown_locked s (some err) "" none).1]
        exact h
      · exact h
  | transition fuel target =>
    simp only [Call.run]
    rw [transitionState_host]
    exact h
  | receive => exact h

theorem runCalls_locked (calls : List Call) (s : serviceHost) (h : s.locked = true) :
    (runCalls s calls).locked = true := by
  induction calls generalizing s with
  | nil => exact h
  | cons c cs ih => exact ih (Call.run s c) (Call.run_locked s c h)

/-- C9: on a host that is not locked, `addModule(m)` returns no error and the
registry becomes the old one with `m` appended, nothing else changing; `Start`
locks the host whatever its outcome, and after a `Start` followed by any calls
`addModule(m)` returns the error "ServiceAlreadyStarted" and leaves the host,
its registry included, as it was. -/
theorem C9_addModule_until_locked (s : serviceHost) (m : Module) :
    (s.locked = false →
      addModule s m = ({ s with modules := s.modules ++ [m] }, none) ∧
      (addModule s m).1.modules = s.modules ++ [m]) ∧
    (∀ (w : Bool) (sched : List Nat), (Start s w sched).host.locked = true) ∧
    (∀ (w : Bool) (sched : List Nat) (calls : List Call),
      addModule (runCalls (Start s w sched).host calls) m =
        (runCalls (Start s w sched).host calls, some "ServiceAlreadyStarted") ∧
      (addModule (runCalls (Start s w sched).host calls) m).1.modules =
        (runCalls (Start s w sched).host calls).modules) := by
  refine ⟨?_, fun w sched => (Start_locked s w sched).1, ?_⟩
  · intro h
    simp [addModule, h]
  · intro w sched calls
    have h := runCalls_locked calls (Start s w sched).host (Start_locked s w sched).1
    simp [addModule, h]

theorem C9_addModule_until_locked_witness :
    freshHost.locked = false ∧
      (addModule freshHost idleModule).1.modules = [idleModule] ∧
      (addModule freshHost idleModule).2 = none ∧
      (addModule (runCalls (Start failingHost false []).host [Call.stop "manual" 7])
        idleModule).2 = some "ServiceAlreadyStarted" :=
  ⟨rfl,
    ((C9_addModule_until_locked freshHost idleModule).1 rfl).2,
    congrArg Prod.snd ((C9_addModule_until_locked freshHost idleModule).1 rfl).1,
    congrArg Prod.snd
      ((C9_addModule_until_locked failingHost idleModule).2.2 false []
        [Call.stop "manual" 7]).1⟩

/-! ## WaitForShutdown -/

/-- C10: the exit code `WaitForShutdown` computes from the record it received is
the callback's result when a callback is given; without a callback it is 1 when
the record carries an error and 0 when it carries none, whatever the record's
`Reason` and `ExitCode`. -/
theorem C10_WaitForShutdown_exit_code :
    (∀ (cb : ServiceExit → Int) (exit : ServiceExit),
      WaitForShutdown (some cb) exit = cb exit) ∧
    (∀ exit : ServiceExit,
      WaitForShutdown none exit = if exit.Error.isSome then 1 else 0) ∧
    (∀ (reason : String) (code : Int),
      WaitForShutdown none { Reason := reason, Error := none, ExitCode := code } = 0) ∧
    (∀ (reason : String) (e : GoError) (code : Int),
      WaitForShutdown none { Reason := reason, Error := some e, ExitCode := code } = 1) := by
  refine ⟨fun _ _ => rfl, fun _ => rfl, fun _ _ => rfl, fun _ _ _ => rfl⟩

/-! ## The request context -/

namespace fxcontext

/-- With a store in the context, `Logger()` returns its logger and leaves the
receiver as it is; `ulog.Logger()` is not consulted. -/
theorem Logger_of_Value (d : Log) (c : Context) (s : store)
    (h : Value c.ctx = some s) : c.Logger d = (s.log, c) := by
  simp [Context.Logger, Context.getStore, h]

/-- Without a store, `Logger()` returns the default logger and wraps the
context with a store holding it. -/
theorem Logger_install (d : Log) (c : Context) (h : Value c.ctx = none) :
    c.Logger d = (d, { ctx := WithValue c.ctx { log := d } }) := by
  simp [Context.Logger, Context.getStore, h]

/-- After a `Logger()` call the context holds a store with the logger returned. -/
theorem Value_after_Logger (d : Log) (c : Context) :
    Value (c.Logger d).2.ctx = some { log := (c.Logger d).1 } := by
  cases h : Value c.ctx with
  | none => rw [Logger_install d c h]; rfl
  | some s => rw [Logger_of_Value d c s h]; exact h

/-- With a store in the context, every call of a run of `Logger()` calls
returns the stored logger, and the receiver never changes. -/
theorem LoggerAll_of_Value (ds : List Log) (c : Context) (s : store)
    (h : Value c.ctx = some s) :
    c.LoggerAll ds = (List.replicate ds.length s.log, c) := by
  induction ds with
  | nil => rfl
  | cons d ds ih =>
    simp only [Context.LoggerAll, Logger_of_Value d c s h, ih, List.length_cons,
      List.replicate_succ]

/-- C11: for the `Context` that `New(ctx, host)` returns. With a host, every
`Logger()` call, the first included, returns `host.Logger()` and the context is
never changed. Without a host and with no store in `ctx`, the first `Logger()`
call returns the default logger and installs it in the context; every later
call returns that same logger, whatever `ulog.Logger()` would give by then, and
leaves the context, its stored value included, as the first call left it. -/
theorem C11_Logger_set_once (ctx : GoContext) (d : Log) (ds : List Log) :
    (∀ h : Host,
      (New ctx (some h)).Logger d = (h.Logger, New ctx (some h)) ∧
      (New ctx (some h)).LoggerAll (d :: ds) =
        (List.replicate (ds.length + 1) h.Logger, New ctx (some h))) ∧
    (Value ctx = none →
      (New ctx none).Logger d = (d, { ctx := WithValue ctx { log := d } }) ∧
      Value ((New ctx none).Logger d).2.ctx = some { log := d } ∧
      (New ctx none).LoggerAll (d :: ds) =
        (List.replicate (ds.length + 1) d, { ctx := WithValue ctx { log := d } }) ∧
      Value ((New ctx none).LoggerAll (d :: ds)).2.ctx = some { log := d }) := by
  constructor
  · intro h
    have hv : Value (New ctx (some h)).ctx = some { log := h.Logger } := rfl
    exact ⟨Logger_of_Value d _ _ hv, LoggerAll_of_Value (d :: ds) _ _ hv⟩
  · intro hnone
    have hv : Value (New ctx none).ctx = none := hnone
    have h1 : (New ctx none).Logger d = (d, { ctx := WithValue ctx { log := d } }) :=
      Logger_install d (New ctx none) hv
    have h2 : Value (WithValue ctx { log := d }) = some { log := d } := rfl
    have h3 : (New ctx none).LoggerAll (d :: ds) =
        (List.replicate (ds.length + 1) d, { ctx := WithValue ctx { log := d } }) := by
      simp only [Context.LoggerAll, h1]
      rw [LoggerAll_of_Value ds { ctx := WithValue ctx { log := d } } { log := d } h2]
      simp [List.replicate_succ]
    refine ⟨h1, ?_, h3, ?_⟩
    · rw [h1]
      exact h2
    · rw [h3]
      exact h2

theorem C11_Logger_set_once_witness :
    Value plainContext = none ∧
      (New plainContext none).Logger 5 =
        (5, { ctx := WithValue plainContext { log := 5 } }) ∧
      (New plainContext none).LoggerAll [5, 6, 9] =
        ([5, 5, 5], { ctx := WithValue plainContext { log := 5 } }) ∧
      (New plainContext (some { Logger := 4 })).LoggerAll [5, 6, 9] =
        ([4, 4, 4], New plainContext (some { Logger := 4 })) :=
  ⟨rfl,
    ((C11_Logger_set_once plainContext 5 [6, 9]).2 rfl).1,
    ((C11_Logger_set_once plainContext 5 [6, 9]).2 rfl).2.2.1,
    ((C11_Logger_set_once plainContext 5 [6, 9]).1 { Logger := 4 }).2⟩

end fxcontext

/-! ## After a shutdown -/

/-- An effective `shutdown` with a waiter on the completion signal returns and
leaves a shut-down host: the signal is closed, not cleared. -/
theorem shutdown_shutDown (s : serviceHost) (err : Option GoError) (reason : String)
    (exitCode : Option Int) (c : Chan)
    (hmu : s.shutdownMu = false) (hr : s.shutdownReason = none)
    (hc : s.closeChan = some c) (hcl : c.closed = false) (hrc : c.receivers ≠ 0) :
    shutDown (shutdown s err reason exitCode).host (mkShutdownReason err reason exitCode)
        (c.delivered ++ [mkShutdownReason err reason exitCode]) ∧
      (shutdown s err reason exitCode).host.closeChan =
        some { receivers := c.receivers - 1,
               delivered := c.delivered ++ [mkShutdownReason err reason exitCode],
               closed := true } := by
  simp [shutDown, shutdown, hmu, hr, hc, IsRunning, hcl, hrc, shutdownDeferred]

/-- On a shut-down host `shutdown` does nothing and the host stays shut down. -/
theorem shutdown_of_shutDown (s : serviceHost) (err : Option GoError) (reason : String)
    (exitCode : Option Int) (exit : ServiceExit) (dl : List ServiceExit)
    (h : shutDown s exit dl) :
    shutDown (shutdown s err reason exitCode).host exit dl ∧
      (shutdown s err reason exitCode).host.closeChan = s.closeChan := by
  obtain ⟨hmu, _, hr, c, hc, hcl, hd⟩ := h
  simp [shutDown, shutdown, hmu, hr, hc, hcl, hd, IsRunning, shutdownDeferred]

/-- On a shut-down host `Start` takes the `IsRunning` branch: it returns the
closed completion signal and a nil error, calls nothing, and leaves the recorded
reason and the signal as they are. -/
theorem Start_of_shutDown (s : serviceHost) (w : Bool) (sched : List Nat)
    (exit : ServiceExit) (dl : List ServiceExit) (h : shutDown s exit dl) :
    (Start s w sched).out = Outcome.returned (s.closeChan, none) ∧
      (Start s w sched).trace = [] ∧
      (Start s w sched).host.closeChan = s.closeChan ∧
      shutDown (Start s w sched).host exit dl := by
  obtain ⟨hmu, hin, hr, c, hc, hcl, hd⟩ := h
  simp [shutDown, Start, hmu, hin, hr, hc, hcl, hd, IsRunning]

theorem Call.run_shutDown (s : serviceHost) (c : Call) (exit : ServiceExit)
    (dl : List ServiceExit) (h : shutDown s exit dl) :
    shutDown (Call.run s c) exit dl := by
  cases c with
  | addModule m =>
    simp only [Call.run, Fx.addModule]
    split
    · exact h
    · exact h
  | start w sched => exact (Start_of_shutDown s w sched exit dl h).2.2.2
  | stop reason exitCode => exact (shutdown_of_shutDown s none reason (some exitCode) exit dl h).1
  | shutdown err reason exitCode => exact (shutdown_of_shutDown s err reason exitCode exit dl h).1
  | criticalError err =>
    simp only [Call.run, OnCriticalError]
    split
    · exact h
    · split
      · exact (shutdown_of_shutDown s (some err) "" none exit dl h).1
      · exact h
  | transition fuel target =>
    simp only [Call.run]
    rw [transitionState_host]
    exact h
  | receive =>
    obtain ⟨hmu, hin, hr, c, hc, hcl, hd⟩ := h
    exact ⟨hmu, hin, hr, { c with receivers := c.receivers + 1 }, by simp [Call.run, hc],
      hcl, hd⟩

theorem runCalls_shutDown (calls : List Call) (s : serviceHost) (exit : ServiceExit)
    (dl : List ServiceExit) (h : shutDown s exit dl) :
    shutDown (runCalls s calls) exit dl := by
  induction calls generalizing s with
  | nil => exact h
  | cons c cs ih => exact ih (Call.run s c) (Call.run_shutDown s c exit dl h)

/-- After any number of `Start` calls a shut-down host has the very same
completion signal. -/
theorem runCalls_start_closeChan (ws : List (Bool × List Nat)) (s : serviceHost)
    (exit : ServiceExit) (dl : List ServiceExit) (h : shutDown s exit dl) :
    (runCalls s (ws.map (fun p => Call.start p.1 p.2))).closeChan = s.closeChan := by
  induction ws generalizing s with
  | nil => rfl
  | cons w ws ih =>
    have h1 := Start_of_shutDown s w.1 w.2 exit dl h
    have h2 := ih (Start s w.1 w.2).host h1.2.2.2
    simp only [List.map_cons, runCalls, List.foldl_cons, Call.run] at h2 ⊢
    rw [h2, h1.2.2.1]

/-- C12: on a running host with no reason recorded, the mutex free and a waiter
on the completion signal, `shutdown` returns and the host still reports
`IsRunning() = true`: the signal is closed, not cleared. Every later `Start`
call, after any number of `Start` calls, returns that same closed signal with a
nil error, invokes neither `OnInit` nor any module `Start`, and leaves the
recorded shutdown reason in place; and the same holds after any other calls on
the host, the signal being then still closed with the same delivered record. -/
theorem C12_no_restart_after_shutdown (s : serviceHost) (err : Option GoError)
    (reason : String) (exitCode : Option Int) (c : Chan)
    (hmu : s.shutdownMu = false) (hr : s.shutdownReason = none)
    (hc : s.closeChan = some c) (hcl : c.closed = false) (hrc : c.receivers ≠ 0) :
    (shutdown s err reason exitCode).out = Outcome.returned (true, err) ∧
    IsRunning (shutdown s err reason exitCode).host = true ∧
    (shutdown s err reason exitCode).host.closeChan =
      some { receivers := c.receivers - 1,
             delivered := c.delivered ++ [mkShutdownReason err reason exitCode],
             closed := true } ∧
    (∀ (ws : List (Bool × List Nat)) (w : Bool) (sched : List Nat),
      (Start (runCalls (shutdown s err reason exitCode).host (ws.map (fun p => Call.start p.1 p.2))) w sched).out =
        Outcome.returned ((shutdown s err reason exitCode).host.closeChan, none) ∧
      (Start (runCalls (shutdown s err reason exitCode).host (ws.map (fun p => Call.start p.1 p.2))) w sched).trace =
        [] ∧
      (Start (runCalls (shutdown s err reason exitCode).host
        (ws.map (fun p => Call.start p.1 p.2))) w sched).host.shutdownReason =
          some (mkShutdownReason err reason exitCode) ∧
      (Start (runCalls (shutdown s err reason exitCode).host
        (ws.map (fun p => Call.start p.1 p.2))) w sched).host.closeChan =
          (shutdown s err reason exitCode).host.closeChan) ∧
    (∀ (calls : List Call) (w : Bool) (sched : List Nat),
      (Start (runCalls (shutdown s err reason exitCode).host calls) w sched).out =
        Outcome.returned ((runCalls (shutdown s err reason exitCode).host calls).closeChan,
          none) ∧
      (Start (runCalls (shutdown s err reason exitCode).host calls) w sched).trace = [] ∧
      (Start (runCalls (shutdown s err reason exitCode).host calls) w sched).host.shutdownReason =
        some (mkShutdownReason err reason exitCode) ∧
      (∃ c1 : Chan,
        (runCalls (shutdown s err reason exitCode).host calls).closeChan = some c1 ∧
        c1.closed = true ∧
        c1.delivered = c.delivered ++ [mkShutdownReason err reason exitCode])) := by
  have hsd := shutdown_shutDown s err reason exitCode c hmu hr hc hcl hrc
  have htr := shutdown_trace s err reason exitCode c hmu hr hc hcl hrc
  refine ⟨htr.2, by simp [IsRunning, hsd.2], hsd.2, ?_, ?_⟩
  · intro ws w sched
    have h1 := runCalls_shutDown (ws.map (fun p => Call.start p.1 p.2)) _ _ _ hsd.1
    have h2 := runCalls_start_closeChan ws _ _ _ hsd.1
    have h3 := Start_of_shutDown _ w sched _ _ h1
    refine ⟨by rw [h3.1, h2], h3.2.1, h3.2.2.2.2.2.1, by rw [h3.2.2.1, h2]⟩
  · intro calls w sched
    have h1 := runCalls_shutDown calls _ _ _ hsd.1
    have h3 := Start_of_shutDown _ w sched _ _ h1
    exact ⟨h3.1, h3.2.1, h3.2.2.2.2.2.1, h1.2.2.2⟩

theorem C12_no_restart_after_shutdown_witness :
    runningHost.shutdownMu = false ∧ runningHost.shutdownReason = none ∧
      IsRunning (shutdown runningHost none "manual" (some 7)).host = true ∧
      (Start (runCalls (shutdown runningHost none "manual" (some 7)).host
        ([(true, []), (false, [1])].map (fun p => Call.start p.1 p.2))) false [2]).out =
          Outcome.returned
            ((shutdown runningHost none "manual" (some 7)).host.closeChan, none) ∧
      (Start (runCalls (shutdown runningHost none "manual" (some 7)).host
        ([(true, []), (false, [1])].map (fun p => Call.start p.1 p.2))) false [2]).trace = [] :=
  ⟨rfl, rfl,
    (C12_no_restart_after_shutdown runningHost none "manual" (some 7)
      { receivers := 1, delivered := [], closed := false } rfl rfl rfl rfl (by decide)).2.1,
    ((C12_no_restart_after_shutdown runningHost none "manual" (some 7)
      { receivers := 1, delivered := [], closed := false } rfl rfl rfl rfl
      (by decide)).2.2.2.1 [(true, []), (false, [1])] false [2]).1,
    ((C12_no_restart_after_shutdown runningHost none "manual" (some 7)
      { receivers := 1, delivered := [], closed := false } rfl rfl rfl rfl
      (by decide)).2.2.2.1 [(true, []), (false, [1])] false [2]).2.1⟩

end Fx
